import Mathlib

/-!
# Verification of the TechCorp expense tracker (`src/App.tsx`)

A shallow embedding of the reproducible logic of the single-page expense
tracker: identity save (`handleSaveEmployee`), expense submission
(`handleSubmitExpense`), history fetch (`fetchExpenseHistory`) and the
statistics aggregation (`calculateStats`).

Modelling conventions:
* TS strings are `String`; the `status` and message-`type` fields are kept as
  string literals, exactly as in the source union types.
* JS numbers are modelled as `ℚ` (amounts are human-entered decimals; the
  spec rules out floating-point ordering issues at this scale).
* Fields the code guards against null/undefined/falsy values
  (`exp.amount || 0`, `exp.category || 'Други'`) are `Option`s, with the
  guard translated so that the empty string (falsy in JS) also takes the
  fallback branch.
* The React `useState` cells form one record `AppState`; each event handler
  is a function on it.  The outcome of the single `fetch` POST
  (resp. the Supabase query) is an explicit argument, so an async handler
  becomes a function of the pre-state and the network outcome.
* `setTimeout` callbacks are modelled as pending actions queued on the
  state; firing a timer executes exactly what the callback closure does.
-/

/-- The fixed allow-list of declared MIME types (`ALLOWED_FILE_TYPES`). -/
def ALLOWED_FILE_TYPES : List String :=
  ["image/jpeg", "image/jpg", "image/png", "image/webp", "image/gif"]

/-- `interface Employee` from the source. -/
structure Employee where
  fullName : String
  employeeId : String
deriving DecidableEq, Repr

/-- A selected file as the handlers see it: its name and declared MIME type. -/
structure FileData where
  name : String
  type : String
deriving DecidableEq, Repr

/-- A UI message `{ type: 'success' | 'error' | 'info'; text: string }`. -/
structure Message where
  type : String
  text : String
deriving DecidableEq, Repr

/-- `interface Expense` from the source.  `amount` and `category` are
`Option`s because the aggregation code defends against absent values with
`exp.amount || 0` and `exp.category || 'Други'`. -/
structure Expense where
  id : String
  employee_id : String
  receipt_image_url : Option String
  merchant : Option String
  receipt_date : Option String
  amount : Option ℚ
  currency : String
  category : Option String
  status : String
  status_reason : Option String
  comment : Option String
  created_at : String
deriving DecidableEq, Repr

/-- `exp.amount || 0`: a missing (or zero) amount contributes `0`. -/
def amountOrZero (a : Option ℚ) : ℚ := a.getD 0

/-- `exp.category || 'Други'`: a null or empty category label falls back to
the localized fallback label `"Други"`. -/
def categoryLabel (c : Option String) : String :=
  match c with
  | none => "Други"
  | some s => if s = "" then "Други" else s

/-- JS `String.prototype.trim`, embedded structurally over the character
list: drop whitespace from the front, then from the back.  (The JS
whitespace set also has exotic members such as NBSP; the common ones —
space, tab, CR, LF — are what `Char.isWhitespace` covers.) -/
def jsTrim (s : String) : String :=
  ⟨((s.data.dropWhile Char.isWhitespace).reverse.dropWhile Char.isWhitespace).reverse⟩

/-- One step of the grouping loop:
`byCategory[cat] = (byCategory[cat] || 0) + (exp.amount || 0)`.
A plain JS object stores its string-keyed properties in creation order, so
the store is an association list: an existing key is updated in place, a new
key is appended at the end.  Enumeration (`Object.entries`) does NOT follow
this stored order for every key: ECMAScript `[[OwnPropertyKeys]]` lists
array-index-like keys first, in ascending numeric order; that reordering is
modelled separately by `jsObjectEntries`. -/
def addToCategory (m : List (String × ℚ)) (cat : String) (amt : ℚ) :
    List (String × ℚ) :=
  match m with
  | [] => [(cat, amt)]
  | (k, v) :: rest =>
      if k = cat then (k, v + amt) :: rest
      else (k, v) :: addToCategory rest cat amt

/-- The record returned by `calculateStats`. -/
structure Stats where
  total : ℚ
  approved : Nat
  rejected : Nat
  pending : Nat
  byCategory : List (String × ℚ)
deriving DecidableEq, Repr

/-- `calculateStats` from the source: total by `reduce`, status counts by
`filter(...).length`, category sums by the `forEach` grouping loop. -/
def calculateStats (expenses : List Expense) : Stats :=
  { total := expenses.foldl (fun sum exp => sum + amountOrZero exp.amount) 0
  , approved := (expenses.filter (fun exp => exp.status == "Approved")).length
  , rejected := (expenses.filter (fun exp => exp.status == "Rejected")).length
  , pending := (expenses.filter (fun exp => exp.status == "Manual Review")).length
  , byCategory := expenses.foldl
      (fun m exp => addToCategory m (categoryLabel exp.category) (amountOrZero exp.amount)) [] }

/-! ## The component state and its event handlers -/

/-- The `useState` cells of the `App` component, together with the
`localStorage` key `techcorp_employee` (`storage`) and the queue of pending
`setTimeout(() => setEmployeeMessage(null), 3000)` callbacks
(`messageClearTimers`; each queued callback is the same closure, which
captures nothing — it unconditionally clears `employeeMessage`). -/
structure AppState where
  employee : Employee
  employeeMessage : Option Message
  isEmployeeSaved : Bool
  storage : Option Employee
  messageClearTimers : List Unit
  comment : String
  selectedFile : Option FileData
  isSubmitting : Bool
  expenseMessage : Option Message
  expenses : List Expense
  isLoadingHistory : Bool
  historyError : Option String
deriving DecidableEq, Repr

/-- `handleSaveEmployee`: clear the message, validate the trimmed name then
the trimmed id (first failure wins), and on success write the trimmed pair
to `localStorage`, set the saved flag, show the success message and schedule
a 3-second timer that clears `employeeMessage`. -/
def handleSaveEmployee (s : AppState) : AppState :=
  if (jsTrim s.employee.fullName) = "" then
    { s with employeeMessage := some ⟨"error", "Моля, въведете пълното си име."⟩ }
  else if (jsTrim s.employee.employeeId) = "" then
    { s with employeeMessage := some ⟨"error", "Моля, въведете служебния си номер."⟩ }
  else
    { s with
      storage := some ⟨(jsTrim s.employee.fullName), (jsTrim s.employee.employeeId)⟩
      isEmployeeSaved := true
      employeeMessage := some ⟨"success", "Данните са запазени успешно!"⟩
      messageClearTimers := s.messageClearTimers ++ [()] }

/-- Firing one pending `setTimeout` callback from `handleSaveEmployee`:
the closure is `() => setEmployeeMessage(null)`, so it sets
`employeeMessage` to `none` unconditionally, whatever message is currently
displayed. -/
def fireMessageClearTimer (s : AppState) : AppState :=
  match s.messageClearTimers with
  | [] => s
  | _ :: rest => { s with employeeMessage := none, messageClearTimers := rest }

/-- The multipart `FormData` payload built by `handleSubmitExpense`. -/
structure FormPayload where
  full_name : String
  employee_id : String
  comment : String
  receipt_file : Option FileData
deriving DecidableEq, Repr

/-- The JSON body `{ status: string, reason?: string }` a 2xx response may
carry.  `status`/`reason` are `Option`s since either field may be absent. -/
structure RespBody where
  status : Option String
  reason : Option String
deriving DecidableEq, Repr

/-- Outcome of the single `fetch` POST to the webhook:
either the promise rejects with an error whose `.message` is the given
string (the empty string models a falsy/absent `message`), or a response
arrives with an HTTP status, a flag for whether the `content-type` header
contains `application/json`, and the parsed JSON body (`none` when parsing
failed — the code swallows that). -/
inductive PostResult where
  | thrown (msg : String)
  | response (status : Nat) (contentTypeJson : Bool) (body : Option RespBody)
deriving DecidableEq, Repr

/-- JS truthiness of an optional string field: `undefined`, `null` and `""`
are falsy. -/
def truthyStr (o : Option String) : Option String :=
  match o with
  | none => none
  | some s => if s = "" then none else some s

/-- The error text shown by the `catch` block:
`` `Грешка при изпращане на разхода: ${error.message || 'Моля, опитайте отново.'}` ``. -/
def submitErrorText (m : String) : String :=
  "Грешка при изпращане на разхода: " ++ (if m = "" then "Моля, опитайте отново." else m)

/-- The success text: with a truthy `status` field in the parsed body,
`` `Разходът е обработен! Статус: ${status}${reason ? ` - ${reason}` : ''}` ``;
otherwise the generic success message. -/
def submitSuccessText (responseData : Option RespBody) : String :=
  match responseData with
  | some rb =>
      match truthyStr rb.status with
      | some st =>
          "Разходът е обработен! Статус: " ++ st ++
            (match truthyStr rb.reason with
             | some r => " - " ++ r
             | none => "")
      | none => "Разходът е изпратен успешно за обработка!"
  | none => "Разходът е изпратен успешно за обработка!"

/-- The third validation check:
`selectedFile && !ALLOWED_FILE_TYPES.includes(selectedFile.type)`. -/
def fileTypeInvalid : Option FileData → Bool
  | none => false
  | some f => !(ALLOWED_FILE_TYPES.contains f.type)

/-- What one call of `handleSubmitExpense` produced: the post-state, whether
the POST was issued, the `FormData` payload it carried, whether the flow
entered the Submitting state (`setIsSubmitting(true)`), and whether the
1-second delayed history refresh was scheduled. -/
structure SubmitResult where
  state : AppState
  posted : Bool
  payload : Option FormPayload
  enteredSubmitting : Bool
  refreshScheduled : Bool
deriving DecidableEq, Repr

/-- `handleSubmitExpense`: clear the message; check the three preconditions
in order (identity saved with non-empty fields; a file or a non-empty
trimmed comment; an allowed file type), returning on the first failure with
the corresponding error and no network call; otherwise enter Submitting,
build the payload, POST it, and handle the outcome inside
`try`/`catch`/`finally` (the `finally` clears `isSubmitting`). -/
def handleSubmitExpense (s : AppState) (res : PostResult) : SubmitResult :=
  if s.isEmployeeSaved = false ∨ s.employee.fullName = "" ∨ s.employee.employeeId = "" then
    { state := { s with expenseMessage := some ⟨"error",
        "Моля, първо въведете и запазете вашите данни в секция \"Идентификация\"."⟩ }
    , posted := false, payload := none, enteredSubmitting := false, refreshScheduled := false }
  else if s.selectedFile = none ∧ (jsTrim s.comment) = "" then
    { state := { s with expenseMessage := some ⟨"error",
        "Моля, качете снимка на касова бележка или въведете описание на разхода."⟩ }
    , posted := false, payload := none, enteredSubmitting := false, refreshScheduled := false }
  else if fileTypeInvalid s.selectedFile then
    { state := { s with expenseMessage := some ⟨"error",
        "Невалиден формат на файла. Позволени са: JPG, JPEG, PNG, WEBP, GIF."⟩ }
    , posted := false, payload := none, enteredSubmitting := false, refreshScheduled := false }
  else
    let payload : FormPayload :=
      { full_name := s.employee.fullName
      , employee_id := s.employee.employeeId
      , comment := (jsTrim s.comment)
      , receipt_file := s.selectedFile }
    match res with
    | .thrown m =>
        { state := { s with
            expenseMessage := some ⟨"error", submitErrorText m⟩
            isSubmitting := false }
        , posted := true, payload := some payload
        , enteredSubmitting := true, refreshScheduled := false }
    | .response status ctJson body =>
        if status < 200 ∨ 299 < status then
          { state := { s with
              expenseMessage := some ⟨"error",
                submitErrorText ("HTTP error! status: " ++ toString status)⟩
              isSubmitting := false }
          , posted := true, payload := some payload
          , enteredSubmitting := true, refreshScheduled := false }
        else
          let responseData := if ctJson then body else none
          { state := { s with
              comment := ""
              selectedFile := none
              expenseMessage := some ⟨"success", submitSuccessText responseData⟩
              isSubmitting := false }
          , posted := true, payload := some payload
          , enteredSubmitting := true, refreshScheduled := true }

/-- Outcome of the Supabase `select` query: success with the returned rows
(`none` models a null `data`, which the code replaces with `[]`), or an
error (the code throws and catches it). -/
inductive FetchResult where
  | success (rows : Option (List Expense))
  | failure
deriving DecidableEq, Repr

/-- `fetchExpenseHistory`: a guarded no-op unless the identity is saved with
both fields non-empty; otherwise sets the loading flag, clears the error,
runs the query filtered by `employee.employeeId`, on success replaces the
list wholesale (`data || []`), on failure sets the generic error and keeps
the list, and clears the loading flag in the `finally`.  Returns the
post-state together with the `employee_id` filter of the issued query
(`none` when no query was issued). -/
def fetchExpenseHistory (s : AppState) (res : FetchResult) : AppState × Option String :=
  if s.isEmployeeSaved = false ∨ s.employee.fullName = "" ∨ s.employee.employeeId = "" then
    (s, none)
  else
    match res with
    | .success rows =>
        ({ s with expenses := rows.getD [], isLoadingHistory := false, historyError := none },
         some s.employee.employeeId)
    | .failure =>
        ({ s with
            isLoadingHistory := false
            historyError := some "Грешка при зареждане на историята. Моля, опитайте отново." },
         some s.employee.employeeId)

/-! ## Concrete states used in examples and witnesses -/

/-- A baseline state: fresh page with a saved, well-formed identity. -/
def baseState : AppState :=
  { employee := ⟨"Иван Иванов", "EMP001"⟩
  , employeeMessage := none
  , isEmployeeSaved := true
  , storage := some ⟨"Иван Иванов", "EMP001"⟩
  , messageClearTimers := []
  , comment := ""
  , selectedFile := none
  , isSubmitting := false
  , expenseMessage := none
  , expenses := []
  , isLoadingHistory := false
  , historyError := none }

/-- An expense record carrying only the fields `calculateStats` reads;
the remaining fields are filled with fixed defaults. -/
def mkExpense (amount : ℚ) (status : String) (category : Option String) : Expense :=
  { id := "", employee_id := "", receipt_image_url := none, merchant := none
  , receipt_date := none, amount := some amount, currency := "BGN"
  , category := category, status := status, status_reason := none
  , comment := none, created_at := "" }

/-- Spec-side definition for the key order of `byCategory`, following the
claim's words: the labels "in the order in which each category label is
first encountered while traversing the list front to back", accumulating
the labels already seen. -/
def firstSeenFrom (seen : List String) : List String → List String
  | [] => seen
  | c :: cs => if c ∈ seen then firstSeenFrom seen cs else firstSeenFrom (seen ++ [c]) cs

/-- The conjunction of the three submission preconditions: identity saved
with non-empty fields, a file or a non-empty trimmed comment, and an
allowed type for any selected file. -/
def validSubmission (s : AppState) : Prop :=
  s.isEmployeeSaved = true ∧ s.employee.fullName ≠ "" ∧ s.employee.employeeId ≠ "" ∧
    (s.selectedFile ≠ none ∨ (jsTrim s.comment) ≠ "") ∧
    (∀ f, s.selectedFile = some f → f.type ∈ ALLOWED_FILE_TYPES)

/-- The numeric value of a digit string (most significant digit first). -/
def keyNumber (s : String) : Nat :=
  s.data.foldl (fun n c => n * 10 + (c.toNat - 48)) 0

/-- ECMAScript array-index key: a canonical numeric string (digits only, no
leading zero except `"0"` itself) whose value is below `2^32 - 1`.  These
are the keys `[[OwnPropertyKeys]]` lists first, in ascending numeric order;
all other string keys follow in property-creation order. -/
def isArrayIndexKey (s : String) : Bool :=
  (!s.data.isEmpty) && s.data.all Char.isDigit &&
    (s = "0" || s.data.head? != some '0') && keyNumber s < 4294967295

/-- Ascending numeric order on (array-index) keys. -/
def stringNumLE (a b : String) : Prop := keyNumber a ≤ keyNumber b

instance : DecidableRel stringNumLE :=
  fun a b => Nat.decLe (keyNumber a) (keyNumber b)

/-- The same order lifted to object entries, comparing the keys. -/
def entryLE (a b : String × ℚ) : Prop := keyNumber a.1 ≤ keyNumber b.1

instance : DecidableRel entryLE :=
  fun a b => Nat.decLe (keyNumber a.1) (keyNumber b.1)

/-- `Object.entries` of a plain JS object whose properties were created in
the stored order `m` (ECMAScript `[[OwnPropertyKeys]]`, as used by the
render code on `stats.byCategory`): array-index-like keys first in ascending
numeric order, then the remaining string keys in creation order. -/
def jsObjectEntries (m : List (String × ℚ)) : List (String × ℚ) :=
  List.insertionSort entryLE (m.filter (fun p => isArrayIndexKey p.1)) ++
    m.filter (fun p => !isArrayIndexKey p.1)

/-- **C1.** On the spec's three-record example list, `calculateStats` returns
total 22, one approved, one rejected, one pending, and a byCategory mapping
`Food ↦ 15` followed by the fallback label (`"Други"`, the localized
rendering of "Other") `↦ 7`: the record with an absent category is summed
under the fallback label. -/
theorem claim1_calculateStats_example :
    calculateStats
      [ mkExpense 10 "Approved" (some "Food")
      , mkExpense 5 "Rejected" (some "Food")
      , mkExpense 7 "Manual Review" none ]
    = { total := 22, approved := 1, rejected := 1, pending := 1
      , byCategory := [("Food", 15), ("Други", 7)] } := by
  simp [calculateStats, mkExpense, amountOrZero, categoryLabel, addToCategory,
    List.foldl, List.filter]
  norm_num

/-- **C2.** `handleSubmitExpense` checks its three preconditions in order
with the first failure winning and no POST issued: (a) identity not saved
with non-empty name and id gives the identity-required error; (b) otherwise
no file and empty trimmed comment gives the provide-receipt-or-description
error; (c) otherwise a file with a disallowed declared MIME type gives the
invalid-format error; only when all three pass does the flow enter
Submitting and issue the POST. -/
theorem claim2_submit_preconditions (s : AppState) (res : PostResult) :
    (s.isEmployeeSaved = false ∨ s.employee.fullName = "" ∨ s.employee.employeeId = "" →
      handleSubmitExpense s res =
        { state := { s with expenseMessage := some ⟨"error",
            "Моля, първо въведете и запазете вашите данни в секция \"Идентификация\"."⟩ }
        , posted := false, payload := none
        , enteredSubmitting := false, refreshScheduled := false }) ∧
    (s.isEmployeeSaved = true → s.employee.fullName ≠ "" → s.employee.employeeId ≠ "" →
      s.selectedFile = none → (jsTrim s.comment) = "" →
      handleSubmitExpense s res =
        { state := { s with expenseMessage := some ⟨"error",
            "Моля, качете снимка на касова бележка или въведете описание на разхода."⟩ }
        , posted := false, payload := none
        , enteredSubmitting := false, refreshScheduled := false }) ∧
    (s.isEmployeeSaved = true → s.employee.fullName ≠ "" → s.employee.employeeId ≠ "" →
      ∀ f, s.selectedFile = some f → f.type ∉ ALLOWED_FILE_TYPES →
      handleSubmitExpense s res =
        { state := { s with expenseMessage := some ⟨"error",
            "Невалиден формат на файла. Позволени са: JPG, JPEG, PNG, WEBP, GIF."⟩ }
        , posted := false, payload := none
        , enteredSubmitting := false, refreshScheduled := false }) ∧
    (validSubmission s →
      (handleSubmitExpense s res).enteredSubmitting = true ∧
      (handleSubmitExpense s res).posted = true) := by
  refine ⟨?_, ?_, ?_, ?_⟩
  · intro h
    simp only [handleSubmitExpense]
    rw [if_pos h]
  · intro h1 h2 h3 hf hc
    simp only [handleSubmitExpense]
    rw [if_neg (by simp [h1, h2, h3]), if_pos ⟨hf, hc⟩]
  · intro h1 h2 h3 f hf hmem
    simp only [handleSubmitExpense]
    rw [if_neg (by simp [h1, h2, h3]), if_neg (by simp [hf]),
      if_pos (by simp [fileTypeInvalid, hf, hmem])]
  · rintro ⟨h1, h2, h3, h4, h5⟩
    have hfile : fileTypeInvalid s.selectedFile = false := by
      cases hsel : s.selectedFile with
      | none => simp [fileTypeInvalid]
      | some f => simp [fileTypeInvalid, h5 f hsel]
    simp only [handleSubmitExpense]
    rw [if_neg (by simp [h1, h2, h3]), if_neg (by tauto), if_neg (by simp [hfile])]
    cases res with
    | thrown m => simp
    | response status ctJson body =>
        by_cases hst : status < 200 ∨ 299 < status <;> simp [hst]

/-- Witness for C2: a submission with identity saved and a PDF file is
rejected with the invalid-format error and no POST. -/
theorem claim2_witness :
    handleSubmitExpense
      { baseState with selectedFile := some ⟨"receipt.pdf", "application/pdf"⟩ }
      (.thrown "") =
    { state := { baseState with
        selectedFile := some ⟨"receipt.pdf", "application/pdf"⟩
        expenseMessage := some ⟨"error",
          "Невалиден формат на файла. Позволени са: JPG, JPEG, PNG, WEBP, GIF."⟩ }
    , posted := false, payload := none
    , enteredSubmitting := false, refreshScheduled := false } :=
  (claim2_submit_preconditions
      { baseState with selectedFile := some ⟨"receipt.pdf", "application/pdf"⟩ }
      (.thrown "")).2.2.1
    (by decide) (by decide) (by decide)
    ⟨"receipt.pdf", "application/pdf"⟩ rfl (by decide)

/-- **C3.** `handleSaveEmployee`: an empty trimmed full name gives the name
validation error and writes nothing to persistence; otherwise an empty
trimmed employee id gives the id validation error (name checked first, one
message at a time) and writes nothing; otherwise the persisted record is
exactly the trimmed pair and the saved flag becomes true. -/
theorem claim3_save_employee (s : AppState) :
    ((jsTrim s.employee.fullName) = "" →
      handleSaveEmployee s =
        { s with employeeMessage := some ⟨"error", "Моля, въведете пълното си име."⟩ }) ∧
    ((jsTrim s.employee.fullName) ≠ "" → (jsTrim s.employee.employeeId) = "" →
      handleSaveEmployee s =
        { s with employeeMessage := some ⟨"error", "Моля, въведете служебния си номер."⟩ }) ∧
    ((jsTrim s.employee.fullName) ≠ "" → (jsTrim s.employee.employeeId) ≠ "" →
      handleSaveEmployee s =
        { s with
            storage := some ⟨(jsTrim s.employee.fullName), (jsTrim s.employee.employeeId)⟩
            isEmployeeSaved := true
            employeeMessage := some ⟨"success", "Данните са запазени успешно!"⟩
            messageClearTimers := s.messageClearTimers ++ [()] }) := by
  refine ⟨?_, ?_, ?_⟩
  · intro h
    simp only [handleSaveEmployee]
    rw [if_pos h]
  · intro h1 h2
    simp only [handleSaveEmployee]
    rw [if_neg h1, if_pos h2]
  · intro h1 h2
    simp only [handleSaveEmployee]
    rw [if_neg h1, if_neg h2]

/-- Witness for C3: saving a name and id that carry surrounding whitespace
persists exactly the trimmed pair and sets the saved flag. -/
theorem claim3_witness :
    handleSaveEmployee
      { baseState with employee := ⟨" Ivan Ivanov ", " EMP001 "⟩
                       isEmployeeSaved := false, storage := none } =
    { baseState with
        employee := ⟨" Ivan Ivanov ", " EMP001 "⟩
        storage := some ⟨"Ivan Ivanov", "EMP001"⟩
        isEmployeeSaved := true
        employeeMessage := some ⟨"success", "Данните са запазени успешно!"⟩
        messageClearTimers := [()] } :=
  (claim3_save_employee
      { baseState with employee := ⟨" Ivan Ivanov ", " EMP001 "⟩
                       isEmployeeSaved := false, storage := none }).2.2
    (by decide) (by decide)

/-- **C4 (code bug).** The 3-second success-message timer is NOT keyed to the
message instance it was created for: its callback is the unconditional
`() => setEmployeeMessage(null)`.  Concrete trace: a successful save shows
the success message and schedules the timer; the user then clears the name
field and saves again, which displays the name validation error; when the
old timer now fires, it wrongly clears that newer error message instead of
leaving it in place as the spec requires. -/
theorem claim4_timer_clears_newer_message :
    (handleSaveEmployee
        { baseState with isEmployeeSaved := false, storage := none }).employeeMessage
      = some ⟨"success", "Данните са запазени успешно!"⟩ ∧
    (handleSaveEmployee
        { handleSaveEmployee { baseState with isEmployeeSaved := false, storage := none } with
          employee := ⟨"", "EMP001"⟩ }).employeeMessage
      = some ⟨"error", "Моля, въведете пълното си име."⟩ ∧
    (handleSaveEmployee
        { handleSaveEmployee { baseState with isEmployeeSaved := false, storage := none } with
          employee := ⟨"", "EMP001"⟩ }).messageClearTimers = [()] ∧
    (fireMessageClearTimer
        (handleSaveEmployee
          { handleSaveEmployee { baseState with isEmployeeSaved := false, storage := none } with
            employee := ⟨"", "EMP001"⟩ })).employeeMessage = none := by
  decide

/-- **C5.** `fetchExpenseHistory` is a no-op unless the identity is saved
with both fields non-empty; on failure it leaves the held expense list
unchanged and sets the generic localized error; on success it replaces the
list wholesale (a null result becoming `[]`) and leaves the error cleared;
and the loading flag is false at the end in every case. -/
theorem claim5_fetch_history (s : AppState) (res : FetchResult) :
    (s.isEmployeeSaved = false ∨ s.employee.fullName = "" ∨ s.employee.employeeId = "" →
      fetchExpenseHistory s res = (s, none)) ∧
    (s.isEmployeeSaved = true → s.employee.fullName ≠ "" → s.employee.employeeId ≠ "" →
      (fetchExpenseHistory s .failure =
        ({ s with
            isLoadingHistory := false
            historyError := some "Грешка при зареждане на историята. Моля, опитайте отново." },
         some s.employee.employeeId)) ∧
      ∀ rows, fetchExpenseHistory s (.success rows) =
        ({ s with expenses := rows.getD [], isLoadingHistory := false, historyError := none },
         some s.employee.employeeId)) := by
  constructor
  · intro h
    simp only [fetchExpenseHistory]
    rw [if_pos h]
  · intro h1 h2 h3
    constructor
    · simp only [fetchExpenseHistory]
      rw [if_neg (by simp [h1, h2, h3])]
    · intro rows
      simp only [fetchExpenseHistory]
      rw [if_neg (by simp [h1, h2, h3])]

/-- Witness for C5: with a non-empty list already loaded, a failed fetch
keeps the list and sets the error; a subsequent successful fetch clears the
error and replaces the list wholesale. -/
theorem claim5_witness :
    fetchExpenseHistory
      { baseState with expenses := [mkExpense 10 "Approved" (some "Food")] } .failure =
      ({ baseState with
          expenses := [mkExpense 10 "Approved" (some "Food")]
          historyError := some "Грешка при зареждане на историята. Моля, опитайте отново." },
       some "EMP001") ∧
    fetchExpenseHistory
      { baseState with
          expenses := [mkExpense 10 "Approved" (some "Food")]
          historyError := some "Грешка при зареждане на историята. Моля, опитайте отново." }
      (.success (some [mkExpense 7 "Rejected" none])) =
      ({ baseState with expenses := [mkExpense 7 "Rejected" none], historyError := none },
       some "EMP001") :=
  ⟨((claim5_fetch_history
        { baseState with expenses := [mkExpense 10 "Approved" (some "Food")] } .failure).2
      (by decide) (by decide) (by decide)).1,
   ((claim5_fetch_history
        { baseState with
            expenses := [mkExpense 10 "Approved" (some "Food")]
            historyError := some "Грешка при зареждане на историята. Моля, опитайте отново." }
        (.success (some [mkExpense 7 "Rejected" none]))).2
      (by decide) (by decide) (by decide)).2 (some [mkExpense 7 "Rejected" none])⟩

/-- The keys of one grouping step: updating an existing key keeps the key
list; a new key is appended at the end. -/
theorem addToCategory_keys (m : List (String × ℚ)) (cat : String) (amt : ℚ) :
    (addToCategory m cat amt).map Prod.fst =
      if cat ∈ m.map Prod.fst then m.map Prod.fst else m.map Prod.fst ++ [cat] := by
  induction m with
  | nil => simp [addToCategory]
  | cons p rest ih =>
      obtain ⟨k, v⟩ := p
      by_cases hk : k = cat
      · simp [addToCategory, hk]
      · by_cases hmem : cat ∈ rest.map Prod.fst <;>
          simp [addToCategory, hk, hmem, ih, Ne.symm hk]

/-- The key list of the whole grouping fold is `firstSeenFrom` of the
category labels, starting from the keys already present. -/
theorem foldl_addToCategory_keys (l : List Expense) :
    ∀ m : List (String × ℚ),
      ((l.foldl
          (fun m exp => addToCategory m (categoryLabel exp.category) (amountOrZero exp.amount))
          m).map Prod.fst)
        = firstSeenFrom (m.map Prod.fst) (l.map (fun e => categoryLabel e.category)) := by
  induction l with
  | nil => intro m; simp [firstSeenFrom]
  | cons e l ih =>
      intro m
      simp only [List.foldl_cons, List.map_cons, firstSeenFrom]
      rw [ih, addToCategory_keys]
      by_cases h : categoryLabel e.category ∈ m.map Prod.fst <;> simp [h]

/-- The stored association order of `byCategory` (property-creation order of
the JS object) is first-seen order of the fallback-resolved labels. -/
theorem byCategory_keys_first_seen (l : List Expense) :
    (calculateStats l).byCategory.map Prod.fst
      = firstSeenFrom [] (l.map (fun e => categoryLabel e.category)) := by
  have h := foldl_addToCategory_keys l []
  simpa [calculateStats] using h

/-- Mapping `Prod.fst` over the array-index filter of an entry list equals
filtering the key list. -/
theorem map_fst_filter_idx (m : List (String × ℚ)) :
    (m.filter (fun p => isArrayIndexKey p.1)).map Prod.fst
      = (m.map Prod.fst).filter (fun c => isArrayIndexKey c) := by
  induction m with
  | nil => rfl
  | cons p rest ih =>
      by_cases h : isArrayIndexKey p.1 <;> simp [h, ih]

/-- Mapping `Prod.fst` over the non-index filter of an entry list equals
filtering the key list. -/
theorem map_fst_filter_nonidx (m : List (String × ℚ)) :
    (m.filter (fun p => !isArrayIndexKey p.1)).map Prod.fst
      = (m.map Prod.fst).filter (fun c => !isArrayIndexKey c) := by
  induction m with
  | nil => rfl
  | cons p rest ih =>
      by_cases h : isArrayIndexKey p.1 <;> simp [h, ih]

/-- `entryLE` compares only the key, so sorted insertion commutes with
projecting the key. -/
theorem map_fst_orderedInsert (p : String × ℚ) (m : List (String × ℚ)) :
    (List.orderedInsert entryLE p m).map Prod.fst
      = List.orderedInsert stringNumLE p.1 (m.map Prod.fst) := by
  induction m with
  | nil => rfl
  | cons q rest ih =>
      by_cases h : keyNumber p.1 ≤ keyNumber q.1
      · simp only [List.orderedInsert]
        rw [if_pos (show entryLE p q from h), if_pos (show stringNumLE p.1 q.1 from h)]
        simp
      · simp only [List.orderedInsert]
        rw [if_neg (show ¬entryLE p q from h), if_neg (show ¬stringNumLE p.1 q.1 from h)]
        simp [ih]

/-- Sorting entries by key and then projecting the keys is sorting the
projected keys. -/
theorem map_fst_insertionSort (m : List (String × ℚ)) :
    (List.insertionSort entryLE m).map Prod.fst
      = List.insertionSort stringNumLE (m.map Prod.fst) := by
  induction m with
  | nil => rfl
  | cons p rest ih =>
      simp only [List.insertionSort]
      rw [map_fst_orderedInsert, ih]

/-- **C6 (counterexample).** The claim "byCategory enumerates its keys in
first-seen order of the input list" fails on the program: for categories
`"10"` then `"2"` — both array-index-like strings — `Object.entries`
enumerates `["2", "10"]` (ascending numeric order), not the first-seen
order `["10", "2"]`. -/
theorem claim6_counterexample :
    (jsObjectEntries (calculateStats
        [mkExpense 1 "Approved" (some "10"), mkExpense 2 "Approved" (some "2")]).byCategory).map
        Prod.fst = ["2", "10"] ∧
    firstSeenFrom []
        ([mkExpense 1 "Approved" (some "10"), mkExpense 2 "Approved" (some "2")].map
          (fun e => categoryLabel e.category)) = ["10", "2"] ∧
    (jsObjectEntries (calculateStats
        [mkExpense 1 "Approved" (some "10"), mkExpense 2 "Approved" (some "2")]).byCategory).map
        Prod.fst ≠
      firstSeenFrom []
        ([mkExpense 1 "Approved" (some "10"), mkExpense 2 "Approved" (some "2")].map
          (fun e => categoryLabel e.category)) := by
  decide

/-- **C6 (amended).** For every expense list, the `byCategory` mapping
enumerates its array-index-like category keys first, in ascending numeric
order, followed by all the other category keys in first-seen order of the
input list (so plain first-seen order holds exactly when no category label
is an array-index string). -/
theorem claim6_amended_enumeration_order (l : List Expense) :
    (jsObjectEntries (calculateStats l).byCategory).map Prod.fst
      = List.insertionSort stringNumLE
          ((firstSeenFrom [] (l.map (fun e => categoryLabel e.category))).filter
            (fun c => isArrayIndexKey c))
        ++ (firstSeenFrom [] (l.map (fun e => categoryLabel e.category))).filter
            (fun c => !isArrayIndexKey c) := by
  have hkeys := byCategory_keys_first_seen l
  simp only [jsObjectEntries, List.map_append]
  rw [map_fst_insertionSort, map_fst_filter_idx, map_fst_filter_nonidx, hkeys]

/-- **C7.** `calculateStats` is deterministic and idempotent: it is a pure
function of the input list, so two calls on the same list (same contents,
same order) return identical results.  In this embedding the input list is
immutable, which is exactly the claim's "no hidden mutation of the input":
the second call receives the same list the first call did. -/
theorem claim7_deterministic_idempotent (l l₂ : List Expense) (h : l = l₂) :
    calculateStats l = calculateStats l₂ := by rw [h]

/-- Witness for C7 at a concrete two-record list. -/
theorem claim7_witness :
    calculateStats [mkExpense 10 "Approved" (some "Food"), mkExpense 7 "Manual Review" none]
      = calculateStats [mkExpense 10 "Approved" (some "Food"), mkExpense 7 "Manual Review" none] :=
  claim7_deterministic_idempotent
    [mkExpense 10 "Approved" (some "Food"), mkExpense 7 "Manual Review" none]
    [mkExpense 10 "Approved" (some "Food"), mkExpense 7 "Manual Review" none] rfl

/-- The value sum of one grouping step grows by the added amount. -/
theorem addToCategory_values_sum (m : List (String × ℚ)) (cat : String) (amt : ℚ) :
    ((addToCategory m cat amt).map Prod.snd).sum = (m.map Prod.snd).sum + amt := by
  induction m with
  | nil => simp [addToCategory]
  | cons p rest ih =>
      obtain ⟨k, v⟩ := p
      by_cases hk : k = cat
      · simp [addToCategory, hk]; ring
      · simp [addToCategory, hk, ih]; ring

/-- The value sum of the grouping fold is the starting sum plus the sum of
all (fallback-resolved) amounts. -/
theorem foldl_addToCategory_values_sum (l : List Expense) :
    ∀ m : List (String × ℚ),
      (((l.foldl
          (fun m exp => addToCategory m (categoryLabel exp.category) (amountOrZero exp.amount))
          m).map Prod.snd).sum)
        = (m.map Prod.snd).sum + (l.map (fun e => amountOrZero e.amount)).sum := by
  induction l with
  | nil => intro m; simp
  | cons e l ih =>
      intro m
      simp only [List.foldl_cons, List.map_cons, List.sum_cons]
      rw [ih, addToCategory_values_sum]
      ring

/-- The `reduce` computing `total` is the sum of all guarded amounts. -/
theorem foldl_total_eq_sum (l : List Expense) :
    ∀ a : ℚ,
      l.foldl (fun sum exp => sum + amountOrZero exp.amount) a
        = a + (l.map (fun e => amountOrZero e.amount)).sum := by
  induction l with
  | nil => intro a; simp
  | cons e l ih =>
      intro a
      simp only [List.foldl_cons, List.map_cons, List.sum_cons]
      rw [ih]
      ring

/-- **C9.** For every expense list, `total` equals the sum of the values of
the `byCategory` mapping: both count each record's guarded amount
(`exp.amount || 0`) exactly once, so the category breakdown partitions the
total. -/
theorem claim9_total_eq_byCategory_sum (l : List Expense) :
    (calculateStats l).total = ((calculateStats l).byCategory.map Prod.snd).sum := by
  simp only [calculateStats]
  rw [foldl_total_eq_sum, foldl_addToCategory_values_sum]
  simp

/-- **C8.** For a submission that passes validation: on a thrown POST error
the shown message is the error's message with a generic fallback, and on a
non-2xx response it is the HTTP-error text carrying the status code; in both
failure cases the comment and the selected file are preserved; and in every
case (success or failure) `isSubmitting` is false at the end, re-enabling
the submit control. -/
theorem claim8_submit_failure_frame (s : AppState) (res : PostResult)
    (h : validSubmission s) :
    (handleSubmitExpense s res).state.isSubmitting = false ∧
    (∀ m, res = .thrown m →
      (handleSubmitExpense s res).state.comment = s.comment ∧
      (handleSubmitExpense s res).state.selectedFile = s.selectedFile ∧
      (handleSubmitExpense s res).state.expenseMessage
        = some ⟨"error", submitErrorText m⟩) ∧
    (∀ status ctJson body, res = .response status ctJson body →
      status < 200 ∨ 299 < status →
      (handleSubmitExpense s res).state.comment = s.comment ∧
      (handleSubmitExpense s res).state.selectedFile = s.selectedFile ∧
      (handleSubmitExpense s res).state.expenseMessage
        = some ⟨"error", submitErrorText ("HTTP error! status: " ++ toString status)⟩) := by
  rcases h with ⟨h1, h2, h3, h4, h5⟩
  have hfile : fileTypeInvalid s.selectedFile = false := by
    cases hsel : s.selectedFile with
    | none => simp [fileTypeInvalid]
    | some f => simp [fileTypeInvalid, h5 f hsel]
  simp only [handleSubmitExpense]
  rw [if_neg (by simp [h1, h2, h3]), if_neg (by tauto), if_neg (by simp [hfile])]
  refine ⟨?_, ?_, ?_⟩
  · cases res with
    | thrown m => simp
    | response status ctJson body =>
        by_cases hst : status < 200 ∨ 299 < status <;> simp [hst]
  · intro m hm
    subst hm
    simp
  · intro status ctJson body heq hst
    subst heq
    simp [hst]

/-- Witness for C8: a 500 response to a valid comment-only submission leaves
the comment in place, keeps no file, clears the submitting flag and shows
the HTTP error message carrying the status code. -/
theorem claim8_witness :
    (handleSubmitExpense { baseState with comment := "lunch" }
        (.response 500 false none)).state.isSubmitting = false ∧
    (handleSubmitExpense { baseState with comment := "lunch" }
        (.response 500 false none)).state.comment = "lunch" ∧
    (handleSubmitExpense { baseState with comment := "lunch" }
        (.response 500 false none)).state.expenseMessage
      = some ⟨"error", "Грешка при изпращане на разхода: HTTP error! status: 500"⟩ := by
  have hv : validSubmission { baseState with comment := "lunch" } :=
    ⟨rfl, by decide, by decide, Or.inr (by decide), fun f hf => Option.noConfusion hf⟩
  have H := claim8_submit_failure_frame { baseState with comment := "lunch" }
    (.response 500 false none) hv
  exact ⟨H.1, (H.2.2 500 false none rfl (by decide)).1,
    (H.2.2 500 false none rfl (by decide)).2.2⟩

/-- On any call of `handleSubmitExpense`, either no payload is built, or the
payload carries the in-memory (untrimmed) identity fields, the trimmed
comment, and the selected file. -/
theorem handleSubmitExpense_payload_shape (s : AppState) (res : PostResult) :
    (handleSubmitExpense s res).payload = none ∨
    (handleSubmitExpense s res).payload =
      some ⟨s.employee.fullName, s.employee.employeeId, jsTrim s.comment, s.selectedFile⟩ := by
  simp only [handleSubmitExpense]
  split
  · exact Or.inl rfl
  · split
    · exact Or.inl rfl
    · split
      · exact Or.inl rfl
      · cases res with
        | thrown m => exact Or.inr rfl
        | response status ctJson body =>
            by_cases hst : status < 200 ∨ 299 < status <;> simp [hst]

/-- A string with a non-empty trim is itself non-empty. -/
theorem ne_empty_of_jsTrim_ne_empty {x : String} (h : jsTrim x ≠ "") : x ≠ "" := by
  intro hx
  subst hx
  exact h rfl

/-- **C10.** Saving an identity whose fields carry surrounding whitespace
persists the trimmed pair while leaving the in-memory identity untrimmed;
consequently every submission payload built afterwards carries the untrimmed
`full_name`/`employee_id`, and the history query filters by the untrimmed
employee id — values that differ from the persisted record. -/
theorem claim10_untrimmed_identity_flows (s : AppState)
    (hn : jsTrim s.employee.fullName ≠ "")
    (hi : jsTrim s.employee.employeeId ≠ "")
    (hw : jsTrim s.employee.fullName ≠ s.employee.fullName) :
    (handleSaveEmployee s).storage
      = some ⟨jsTrim s.employee.fullName, jsTrim s.employee.employeeId⟩ ∧
    (handleSaveEmployee s).employee = s.employee ∧
    (handleSaveEmployee s).storage ≠ some s.employee ∧
    (∀ res p, (handleSubmitExpense (handleSaveEmployee s) res).payload = some p →
      p.full_name = s.employee.fullName ∧ p.employee_id = s.employee.employeeId) ∧
    (∀ fres, (fetchExpenseHistory (handleSaveEmployee s) fres).2
      = some s.employee.employeeId) := by
  have hsave : handleSaveEmployee s =
      { s with
          storage := some ⟨jsTrim s.employee.fullName, jsTrim s.employee.employeeId⟩
          isEmployeeSaved := true
          employeeMessage := some ⟨"success", "Данните са запазени успешно!"⟩
          messageClearTimers := s.messageClearTimers ++ [()] } := by
    simp only [handleSaveEmployee]
    rw [if_neg hn, if_neg hi]
  refine ⟨by rw [hsave], by rw [hsave], ?_, ?_, ?_⟩
  · rw [hsave]
    intro hEq
    simp only [Option.some.injEq] at hEq
    have : jsTrim s.employee.fullName = s.employee.fullName :=
      congrArg Employee.fullName hEq
    exact hw this
  · intro res p hp
    rcases handleSubmitExpense_payload_shape (handleSaveEmployee s) res with h0 | h0
    · rw [h0] at hp
      exact absurd hp (by simp)
    · rw [h0] at hp
      have hp2 := Option.some.inj hp
      constructor
      · have := congrArg FormPayload.full_name hp2
        simpa [hsave] using this.symm
      · have := congrArg FormPayload.employee_id hp2
        simpa [hsave] using this.symm
  · intro fres
    rw [hsave]
    simp only [fetchExpenseHistory]
    rw [if_neg (by
      simp [ne_empty_of_jsTrim_ne_empty hn, ne_empty_of_jsTrim_ne_empty hi])]
    cases fres <;> rfl

/-- Witness for C10: saving `" Ivan Ivanov "`/`" EMP001 "` persists the
trimmed pair, keeps the untrimmed pair in memory, and the persisted record
differs from the in-memory identity the later calls use. -/
theorem claim10_witness :
    (handleSaveEmployee
        { baseState with employee := ⟨" Ivan Ivanov ", " EMP001 "⟩ }).storage
      = some ⟨"Ivan Ivanov", "EMP001"⟩ ∧
    (handleSaveEmployee
        { baseState with employee := ⟨" Ivan Ivanov ", " EMP001 "⟩ }).employee
      = ⟨" Ivan Ivanov ", " EMP001 "⟩ ∧
    (handleSaveEmployee
        { baseState with employee := ⟨" Ivan Ivanov ", " EMP001 "⟩ }).storage
      ≠ some ⟨" Ivan Ivanov ", " EMP001 "⟩ := by
  have H := claim10_untrimmed_identity_flows
    { baseState with employee := ⟨" Ivan Ivanov ", " EMP001 "⟩ }
    (by decide) (by decide) (by decide)
  exact ⟨H.1, H.2.1, H.2.2.1⟩
